import Mathlib

/-!
Verification of the context-assembly and validation subsystem of the
json-gettext crate (src/builder.rs), as a shallow embedding in Lean 4.

Modelling choices:
* Rust `HashMap` instances are modelled as association lists
  (`List (String × α)`) whose keys are unique (the `HashMap` invariant);
  `contains_key` and `insert` are modelled by `containsKey` and
  `insertKV`, lookup takes the first match.
* External collaborators (serde_json, the file system) are modelled at
  their interface boundary: a raw JSON text is represented by its parse
  outcome (`JSONText := Except JSONError JSON`), a file by its open/read
  outcome (`Except IOError JSONText`), and a serializable value by its
  `serde_json::to_value` outcome (`Except JSONError JSON`).
* A method taking `&mut self` and returning `Result<&mut Self, E>` is
  embedded in state-passing style: it returns the builder state after the
  call together with the call outcome (`Builder × AddOutcome`).  The
  `unreachable!()` macro is modelled by the `AddOutcome.panicked`
  constructor.
-/

/-- Model of `serde_json::Value`: the generic structured JSON value.
JSON numbers are represented by a single constructor; no claim under
verification distinguishes integer from floating numerals. -/
inductive JSON where
  | null : JSON
  | bool (b : Bool) : JSON
  | num (n : Int) : JSON
  | str (s : String) : JSON
  | arr (xs : List JSON) : JSON
  | obj (fields : List (String × JSON)) : JSON
deriving Inhabited

/-- Model of `serde_json::Error`: a codec (deserialization) failure. -/
inductive JSONError where
  | syntaxErr (msg : String) : JSONError
  | invalidType (unexpected : String) (expected : String) : JSONError
deriving Repr, DecidableEq, Inhabited

/-- Model of `std::io::Error`: a byte-source open/read failure. -/
structure IOError where
  msg : String
deriving Repr, DecidableEq, Inhabited

/-- A short description of the top-level shape of a JSON value, used in
the invalid-type error message, mirroring serde_json error texts. -/
def JSON.describe : JSON → String
  | .null => "null"
  | .bool _ => "a boolean"
  | .num _ => "a number"
  | .str _ => "a string"
  | .arr _ => "an array"
  | .obj _ => "a map"

/-- A raw JSON text, modelled by its parse outcome: either a syntax
error or the generic JSON value the text denotes. -/
abbrev JSONText : Type := Except JSONError JSON

/-- Model of `serde_json::from_str::<Map<String, Value>>`: parse the
text and require the top-level shape to be an object, failing with an
invalid-type error otherwise. -/
def from_str_map (t : JSONText) : Except JSONError (List (String × JSON)) :=
  match t with
  | .error e => .error e
  | .ok (JSON.obj fields) => .ok fields
  | .ok v => .error (JSONError.invalidType v.describe "a map")

/-- Model of `JSONGetTextValue` (the Text Value type of the crate, held
per key in a locale table): either a borrowed string slice or an owned
generic JSON value. -/
inductive JSONGetTextValue where
  | str (s : String) : JSONGetTextValue
  | jsonValue (v : JSON) : JSONGetTextValue
deriving Inhabited

/-- Modelled from the spec: `JSONGetTextValue::from_json_value` (the
conversion from a generic structured value to an owned Text Value; its
source file is not part of the provided sources).  It wraps the generic
value as an owned Text Value. -/
def from_json_value (v : JSON) : JSONGetTextValue :=
  JSONGetTextValue.jsonValue v

/-- Modelled from the spec: the `Deserialize` instance of
`JSONGetTextValue` used by `add_json` to deserialize a JSON value
directly into a Text Value whose strings may borrow from the input (its
source file is not part of the provided sources). -/
def JSONGetTextValue.fromJSONDirect (v : JSON) : JSONGetTextValue :=
  match v with
  | .str s => JSONGetTextValue.str s
  | v => JSONGetTextValue.jsonValue v

/-- The observable content of a Text Value: the generic JSON value it
denotes.  Borrowed and owned representations of the same string are
observably equal. -/
def JSONGetTextValue.observe : JSONGetTextValue → JSON
  | .str s => JSON.str s
  | .jsonValue v => v

/-- A Locale Table: mapping from string key to Text Value
(`HashMap<String, JSONGetTextValue>` in the source). -/
abbrev Table : Type := List (String × JSONGetTextValue)

/-- The observable content of a Locale Table: its entries with each
Text Value replaced by the generic JSON value it denotes. -/
def observeTable (t : Table) : List (String × JSON) :=
  t.map (fun p => (p.1, p.2.observe))

/-- The Context: mapping from locale identifier to Locale Table
(`HashMap<String, HashMap<String, JSONGetTextValue>>` in the source). -/
abbrev Context : Type := List (String × Table)

/-- Model of `HashMap::contains_key`. -/
def containsKey {α : Type} (m : List (String × α)) (k : String) : Bool :=
  m.any (fun p => p.1 == k)

/-- Model of `HashMap::get` (first matching entry). -/
def lookupKV {α : Type} (m : List (String × α)) (k : String) : Option α :=
  match m with
  | [] => none
  | (k0, v) :: rest => if k0 == k then some v else lookupKV rest k

/-- Model of `HashMap::insert` for a key known to be absent. -/
def insertKV {α : Type} (m : List (String × α)) (k : String) (v : α) :
    List (String × α) :=
  (k, v) :: m

/-- Model of `JSONGetTextBuildError` (src/builder.rs, lines 13-23). -/
inductive JSONGetTextBuildError where
  | DefaultKeyNotFound : JSONGetTextBuildError
  | TextInKeyNotInDefaultKey (key : String) (text : String) : JSONGetTextBuildError
  | DuplicatedKey (key : String) : JSONGetTextBuildError
  | IOError (err : IOError) : JSONGetTextBuildError
  | SerdeJSONError (err : JSONError) : JSONGetTextBuildError
deriving DecidableEq

/-- Model of `JSONGetTextBuilder` (src/builder.rs, lines 65-69). -/
structure JSONGetTextBuilder where
  default_key : String
  context : Context

/-- Model of `JSONGetTextBuilder::new`. -/
def JSONGetTextBuilder.new (default_key : String) : JSONGetTextBuilder :=
  { default_key := default_key, context := [] }

/-- Model of the finalized `JSONGetText` store. -/
structure JSONGetText where
  default_key : String
  context : Context

/-- The outcome of one add call on the builder: success (the handle is
returned for chaining), an error value, or a panic (`unreachable!()`). -/
inductive AddOutcome where
  | ok : AddOutcome
  | err (e : JSONGetTextBuildError) : AddOutcome
  | panicked (msg : String) : AddOutcome
deriving DecidableEq

/-- Model of `JSONGetTextBuilder::add_json` (src/builder.rs, lines
82-98): duplicate-key check, then deserialize the text directly into a
table of (possibly borrowing) Text Values, then insert. -/
def add_json (b : JSONGetTextBuilder) (key : String) (json : JSONText) :
    JSONGetTextBuilder × AddOutcome :=
  if containsKey b.context key then
    (b, .err (.DuplicatedKey key))
  else
    match from_str_map json with
    | .error e => (b, .err (.SerdeJSONError e))
    | .ok fields =>
        let map : Table :=
          fields.map (fun p => (p.1, JSONGetTextValue.fromJSONDirect p.2))
        ({ b with context := insertKV b.context key map }, .ok)

/-- Model of `JSONGetTextBuilder::add_json_owned` (src/builder.rs,
lines 101-124): duplicate-key check, then deserialize the text into a
generic map, convert each entry to an owned Text Value, then insert. -/
def add_json_owned (b : JSONGetTextBuilder) (key : String) (json : JSONText) :
    JSONGetTextBuilder × AddOutcome :=
  if containsKey b.context key then
    (b, .err (.DuplicatedKey key))
  else
    match from_str_map json with
    | .error e => (b, .err (.SerdeJSONError e))
    | .ok value =>
        let map : Table := value.map (fun p => (p.1, from_json_value p.2))
        ({ b with context := insertKV b.context key map }, .ok)

/-- Model of `JSONGetTextBuilder::add_json_file` (src/builder.rs, lines
127-152): duplicate-key check, then open the file (an I/O failure is
wrapped), then deserialize its contents into a generic map, convert each
entry to an owned Text Value, then insert. -/
def add_json_file (b : JSONGetTextBuilder) (key : String)
    (file : Except IOError JSONText) : JSONGetTextBuilder × AddOutcome :=
  if containsKey b.context key then
    (b, .err (.DuplicatedKey key))
  else
    match file with
    | .error e => (b, .err (.IOError e))
    | .ok text =>
        match from_str_map text with
        | .error e => (b, .err (.SerdeJSONError e))
        | .ok value =>
            let map : Table := value.map (fun p => (p.1, from_json_value p.2))
            ({ b with context := insertKV b.context key map }, .ok)

/-- The literal JSON text used by `add_serialize` to force a
deserialization error: the string `"MagicLen"`, which parses as a JSON
string and therefore never deserializes as a map. -/
def magicLenText : JSONText := .ok (JSON.str "MagicLen")

/-- Model of `JSONGetTextBuilder::add_serialize` (src/builder.rs, lines
155-187): duplicate-key check, then serialize the value (a failure is
wrapped); if the result is an object convert and insert it, otherwise
force a failing parse of the literal text and, were that parse to
succeed, hit `unreachable!()`. -/
def add_serialize (b : JSONGetTextBuilder) (key : String)
    (value : Except JSONError JSON) : JSONGetTextBuilder × AddOutcome :=
  if containsKey b.context key then
    (b, .err (.DuplicatedKey key))
  else
    match value with
    | .error e => (b, .err (.SerdeJSONError e))
    | .ok (JSON.obj fields) =>
        let map : Table := fields.map (fun p => (p.1, from_json_value p.2))
        ({ b with context := insertKV b.context key map }, .ok)
    | .ok _ =>
        match from_str_map magicLenText with
        | .error e => (b, .err (.SerdeJSONError e))
        | .ok _ => (b, .panicked "internal error: entered unreachable code")

/-- Model of `JSONGetTextBuilder::add_map` (src/builder.rs, lines
190-204): duplicate-key check, then insert the pre-built table
directly. -/
def add_map (b : JSONGetTextBuilder) (key : String) (map : Table) :
    JSONGetTextBuilder × AddOutcome :=
  if containsKey b.context key then
    (b, .err (.DuplicatedKey key))
  else
    ({ b with context := insertKV b.context key map }, .ok)

/-- First key of `table` that is absent from `default_map`, scanning in
order. -/
def findMissingKey (default_map : Table) : Table → Option String
  | [] => none
  | (t, _) :: rest =>
      if containsKey default_map t then findMissingKey default_map rest
      else some t

/-- First violation: scanning the context in order and skipping the
default entry, the first non-default table holding a key absent from
the default table, together with that key. -/
def findViolation (default_key : String) (default_map : Table) :
    Context → Option (String × String)
  | [] => none
  | (k, table) :: rest =>
      if k == default_key then findViolation default_key default_map rest
      else
        match findMissingKey default_map table with
        | some t => some (k, t)
        | none => findViolation default_key default_map rest

/-- Modelled from the spec: `JSONGetText::from_context_with_default_key`
(the build-time validator; its source file is not part of the provided
sources).  It first requires the default-locale identifier to be present
in the context, failing with `DefaultKeyNotFound` otherwise; it then
checks every key of every other locale table for membership in the
default table, failing with `TextInKeyNotInDefaultKey` on the first
missing key; if all checks pass it moves the context and the
default-locale identifier into an immutable store. -/
def from_context_with_default_key (default_key : String) (context : Context) :
    Except JSONGetTextBuildError JSONGetText :=
  match lookupKV context default_key with
  | none => .error .DefaultKeyNotFound
  | some default_map =>
      match findViolation default_key default_map context with
      | some (k, t) => .error (.TextInKeyNotInDefaultKey k t)
      | none => .ok { default_key := default_key, context := context }

/-- Model of `JSONGetTextBuilder::build` (src/builder.rs, lines
207-209): hand the default key and the accumulated context to the
validator. -/
def build (b : JSONGetTextBuilder) : Except JSONGetTextBuildError JSONGetText :=
  from_context_with_default_key b.default_key b.context

/-- The keys of an association list are pairwise distinct: the
`HashMap` representation invariant. -/
def keysNodup {α : Type} (m : List (String × α)) : Prop :=
  (m.map Prod.fst).Nodup

/-! ## Helper lemmas -/

theorem lookupKV_eq_none_of_not_contains {α : Type} (m : List (String × α))
    (k : String) (h : containsKey m k = false) : lookupKV m k = none := by
  induction m with
  | nil => rfl
  | cons p rest ih =>
      simp only [containsKey, List.any_cons, Bool.or_eq_false_iff] at h
      simp only [lookupKV, h.1, if_false]
      exact ih (by simp [containsKey, h.2])

theorem contains_of_lookupKV_eq_some {α : Type} (m : List (String × α))
    (k : String) (v : α) (h : lookupKV m k = some v) : containsKey m k = true := by
  induction m with
  | nil => simp [lookupKV] at h
  | cons p rest ih =>
      simp only [lookupKV] at h
      by_cases hk : (p.1 == k) = true
      · simp [containsKey, hk]
      · rw [if_neg hk] at h
        simp only [containsKey, List.any_cons, Bool.or_eq_true]
        have hr := ih h
        simp only [containsKey] at hr
        exact Or.inr hr

theorem lookupKV_insert_self {α : Type} (m : List (String × α)) (k : String)
    (v : α) : lookupKV (insertKV m k v) k = some v := by
  simp [insertKV, lookupKV]

theorem lookupKV_insert_other {α : Type} (m : List (String × α)) (k k2 : String)
    (v : α) (h : k2 ≠ k) : lookupKV (insertKV m k v) k2 = lookupKV m k2 := by
  simp only [insertKV, lookupKV]
  rw [if_neg (by simpa using fun e => h e.symm)]

theorem observe_fromJSONDirect (v : JSON) :
    (JSONGetTextValue.fromJSONDirect v).observe = v := by
  cases v <;> rfl

theorem observe_from_json_value (v : JSON) : (from_json_value v).observe = v := rfl

theorem observeTable_map (f : JSON → JSONGetTextValue)
    (hf : ∀ v, (f v).observe = v) (l : List (String × JSON)) :
    observeTable (l.map (fun p => (p.1, f p.2))) = l := by
  induction l with
  | nil => rfl
  | cons p rest ih =>
      simp only [List.map_cons, observeTable] at ih ⊢
      rw [hf, ih]

theorem findMissingKey_eq_none (dmap table : Table)
    (h : ∀ e ∈ table, containsKey dmap e.1 = true) :
    findMissingKey dmap table = none := by
  induction table with
  | nil => rfl
  | cons e rest ih =>
      obtain ⟨t, v⟩ := e
      simp only [findMissingKey]
      rw [if_pos (h (t, v) (List.Mem.head _)), ih]
      exact fun e he => h e (List.Mem.tail _ he)

theorem findMissingKey_spec (dmap table : Table) (t : String)
    (h : findMissingKey dmap table = some t) :
    containsKey table t = true ∧ containsKey dmap t = false := by
  induction table with
  | nil => simp [findMissingKey] at h
  | cons e rest ih =>
      obtain ⟨t0, v⟩ := e
      simp only [findMissingKey] at h
      by_cases hc : containsKey dmap t0 = true
      · rw [if_pos hc] at h
        obtain ⟨h1, h2⟩ := ih h
        exact ⟨by simp [containsKey] at h1 ⊢; exact Or.inr h1, h2⟩
      · rw [if_neg hc] at h
        obtain rfl := Option.some.inj h
        exact ⟨by simp [containsKey], by simpa using hc⟩

theorem findMissingKey_isSome (dmap table : Table) (e : String × JSONGetTextValue)
    (he : e ∈ table) (hc : containsKey dmap e.1 = false) :
    ∃ t, findMissingKey dmap table = some t := by
  induction table with
  | nil => cases he
  | cons e0 rest ih =>
      obtain ⟨t0, v⟩ := e0
      simp only [findMissingKey]
      by_cases h0 : containsKey dmap t0 = true
      · rw [if_pos h0]
        cases he with
        | head => exact absurd h0 (by simp [hc])
        | tail _ hmem => exact ih hmem
      · rw [if_neg h0]
        exact ⟨t0, rfl⟩

theorem findViolation_eq_none (dk : String) (dmap : Table) (ctx : Context)
    (h : ∀ p ∈ ctx, p.1 ≠ dk → ∀ e ∈ p.2, containsKey dmap e.1 = true) :
    findViolation dk dmap ctx = none := by
  induction ctx with
  | nil => rfl
  | cons p rest ih =>
      obtain ⟨k, table⟩ := p
      simp only [findViolation]
      by_cases hk : (k == dk) = true
      · rw [if_pos hk]
        exact ih (fun p hp => h p (List.Mem.tail _ hp))
      · rw [if_neg hk]
        rw [findMissingKey_eq_none dmap table
          (h (k, table) (List.Mem.head _) (by simpa using hk))]
        exact ih (fun p hp => h p (List.Mem.tail _ hp))

theorem findViolation_spec (dk : String) (dmap : Table) (ctx : Context)
    (k t : String) (h : findViolation dk dmap ctx = some (k, t)) :
    ∃ table, (k, table) ∈ ctx ∧ k ≠ dk ∧ containsKey table t = true ∧
      containsKey dmap t = false := by
  induction ctx with
  | nil => simp [findViolation] at h
  | cons p rest ih =>
      obtain ⟨k0, table0⟩ := p
      simp only [findViolation] at h
      by_cases hk : (k0 == dk) = true
      · rw [if_pos hk] at h
        obtain ⟨table, h1, h2, h3⟩ := ih h
        exact ⟨table, List.Mem.tail _ h1, h2, h3⟩
      · rw [if_neg hk] at h
        cases hmk : findMissingKey dmap table0 with
        | some t0 =>
            rw [hmk] at h
            have hpair := Option.some.inj h
            obtain ⟨hk0, ht0⟩ : k0 = k ∧ t0 = t :=
              ⟨congrArg Prod.fst hpair, congrArg Prod.snd hpair⟩
            subst hk0
            subst ht0
            obtain ⟨h1, h2⟩ := findMissingKey_spec dmap table0 _ hmk
            exact ⟨table0, List.Mem.head _, by simpa using hk, h1, h2⟩
        | none =>
            rw [hmk] at h
            obtain ⟨table, h1, h2, h3⟩ := ih h
            exact ⟨table, List.Mem.tail _ h1, h2, h3⟩

theorem findViolation_isSome (dk : String) (dmap : Table) (ctx : Context)
    (k : String) (table : Table) (hmem : (k, table) ∈ ctx) (hk : k ≠ dk)
    (e : String × JSONGetTextValue) (he : e ∈ table)
    (hc : containsKey dmap e.1 = false) :
    ∃ p, findViolation dk dmap ctx = some p := by
  induction ctx with
  | nil => cases hmem
  | cons p0 rest ih =>
      obtain ⟨k0, table0⟩ := p0
      simp only [findViolation]
      by_cases h0 : (k0 == dk) = true
      · rw [if_pos h0]
        cases hmem with
        | head => exact absurd (by simpa using h0) hk
        | tail _ hmem0 => exact ih hmem0
      · rw [if_neg h0]
        cases hmem with
        | head =>
            obtain ⟨t, ht⟩ := findMissingKey_isSome dmap table e he hc
            rw [ht]
            exact ⟨(k, t), rfl⟩
        | tail _ hmem0 =>
            cases hmk : findMissingKey dmap table0 with
            | some t0 => exact ⟨(k0, t0), rfl⟩
            | none => exact ih hmem0

/-! ## Claim theorems -/

/-- Claim C2: for every Builder whose accumulated Context does not contain an
entry under the default-locale identifier, `build` always fails with
`DefaultKeyNotFound`, regardless of how many other locale tables are present;
the check precedes any other validation. -/
theorem C2_build_without_default_fails (b : JSONGetTextBuilder)
    (h : containsKey b.context b.default_key = false) :
    build b = .error JSONGetTextBuildError.DefaultKeyNotFound := by
  unfold build from_context_with_default_key
  rw [lookupKV_eq_none_of_not_contains b.context b.default_key h]

/-- Witness for C2: a builder with default key en and a single fr table. -/
theorem C2_build_without_default_fails_witness :
    containsKey [("fr", ([] : Table))] "en" = false ∧
    build { default_key := "en", context := [("fr", [])] } =
      .error JSONGetTextBuildError.DefaultKeyNotFound :=
  ⟨rfl, C2_build_without_default_fails ⟨"en", [("fr", [])]⟩ rfl⟩

/-- Claim C3: for every add operation and every builder state, if the target
locale key is already present in the Context, the call returns a
`DuplicatedKey` error carrying the offending key and the builder (hence the
Context) is left exactly as it was. -/
theorem C3_duplicate_key_rejected_without_side_effect (b : JSONGetTextBuilder)
    (key : String) (h : containsKey b.context key = true) :
    (∀ json, add_json b key json = (b, .err (.DuplicatedKey key))) ∧
    (∀ json, add_json_owned b key json = (b, .err (.DuplicatedKey key))) ∧
    (∀ file, add_json_file b key file = (b, .err (.DuplicatedKey key))) ∧
    (∀ value, add_serialize b key value = (b, .err (.DuplicatedKey key))) ∧
    (∀ m, add_map b key m = (b, .err (.DuplicatedKey key))) := by
  refine ⟨fun json => ?_, fun json => ?_, fun file => ?_, fun value => ?_,
    fun m => ?_⟩ <;>
  simp [add_json, add_json_owned, add_json_file, add_serialize, add_map, h]

/-- Witness for C3: adding en twice; the second call fails and leaves the
first table in place. -/
theorem C3_duplicate_key_rejected_without_side_effect_witness :
    containsKey [("en", ([("hello", JSONGetTextValue.str "Hello")] : Table))]
      "en" = true ∧
    add_json
        { default_key := "en",
          context := [("en", [("hello", JSONGetTextValue.str "Hello")])] }
        "en" (Except.ok (JSON.obj [])) =
      ({ default_key := "en",
         context := [("en", [("hello", JSONGetTextValue.str "Hello")])] },
        .err (.DuplicatedKey "en")) :=
  ⟨rfl,
    (C3_duplicate_key_rejected_without_side_effect
      ⟨"en", [("en", [("hello", JSONGetTextValue.str "Hello")])]⟩ "en" rfl).1 _⟩

/-- Claim C1: for every Context passed to build (here: every builder state
whose context holds a table under the default key), if every non-default
table has all its keys in the default table then build succeeds and returns
the store; and if some key of some non-default table is absent from the
default table then build fails with TextInKeyNotInDefaultKey carrying an
offending locale identifier together with a key of that locale that is
absent from the default table. -/
theorem C1_build_default_completeness (b : JSONGetTextBuilder) (dmap : Table)
    (hd : lookupKV b.context b.default_key = some dmap) :
    ((∀ p ∈ b.context, p.1 ≠ b.default_key →
        ∀ e ∈ p.2, containsKey dmap e.1 = true) →
      build b = .ok { default_key := b.default_key, context := b.context }) ∧
    (∀ k table e, (k, table) ∈ b.context → k ≠ b.default_key → e ∈ table →
      containsKey dmap e.1 = false →
      ∃ kk tt,
        build b = .error (.TextInKeyNotInDefaultKey kk tt) ∧
        ∃ tbl, (kk, tbl) ∈ b.context ∧ kk ≠ b.default_key ∧
          containsKey tbl tt = true ∧ containsKey dmap tt = false) := by
  constructor
  · intro hsub
    simp [build, from_context_with_default_key, hd,
      findViolation_eq_none b.default_key dmap b.context hsub]
  · intro k table e hmem hk he hc
    obtain ⟨⟨kk, tt⟩, hv⟩ :=
      findViolation_isSome b.default_key dmap b.context k table hmem hk e he hc
    refine ⟨kk, tt, ?_, ?_⟩
    · simp [build, from_context_with_default_key, hd, hv]
    · exact findViolation_spec b.default_key dmap b.context kk tt hv

/-- Witness for C1: scenario A (fr with only the key hello, which en also
holds) builds successfully; scenario B (fr holding the key bye, absent from
en) fails with a genuinely offending locale and key. -/
theorem C1_build_default_completeness_witness :
    (build { default_key := "en",
             context := [("fr", [("hello", JSONGetTextValue.str "Bonjour")]),
                         ("en", [("hello", JSONGetTextValue.str "Hello")])] } =
      .ok { default_key := "en",
            context := [("fr", [("hello", JSONGetTextValue.str "Bonjour")]),
                        ("en", [("hello", JSONGetTextValue.str "Hello")])] }) ∧
    (∃ kk tt,
      build { default_key := "en",
              context := [("fr", [("bye", JSONGetTextValue.str "Au revoir")]),
                          ("en", [("hello", JSONGetTextValue.str "Hello")])] } =
        .error (.TextInKeyNotInDefaultKey kk tt) ∧
      ∃ tbl,
        (kk, tbl) ∈
          [("fr", ([("bye", JSONGetTextValue.str "Au revoir")] : Table)),
           ("en", [("hello", JSONGetTextValue.str "Hello")])] ∧
        kk ≠ "en" ∧ containsKey tbl tt = true ∧
        containsKey [("hello", JSONGetTextValue.str "Hello")] tt = false) :=
  ⟨(C1_build_default_completeness
      ⟨"en", [("fr", [("hello", JSONGetTextValue.str "Bonjour")]),
              ("en", [("hello", JSONGetTextValue.str "Hello")])]⟩
      [("hello", JSONGetTextValue.str "Hello")] rfl).1
      (by decide),
    (C1_build_default_completeness
      ⟨"en", [("fr", [("bye", JSONGetTextValue.str "Au revoir")]),
              ("en", [("hello", JSONGetTextValue.str "Hello")])]⟩
      [("hello", JSONGetTextValue.str "Hello")] rfl).2
      "fr" [("bye", JSONGetTextValue.str "Au revoir")]
      ("bye", JSONGetTextValue.str "Au revoir")
      (List.Mem.head _) (by decide) (List.Mem.head _) rfl⟩

/-- Success postcondition of an add operation: the default key is unchanged,
the given key now maps to a table, every other key maps exactly as before,
and the context holds exactly one entry more than before. -/
def addedExactlyOne (b bPost : JSONGetTextBuilder) (key : String) : Prop :=
  bPost.default_key = b.default_key ∧
  (∃ t, lookupKV bPost.context key = some t) ∧
  (∀ k2, k2 ≠ key → lookupKV bPost.context k2 = lookupKV b.context k2) ∧
  bPost.context.length = b.context.length + 1

theorem addedExactlyOne_insert (b : JSONGetTextBuilder) (key : String)
    (t : Table) :
    addedExactlyOne b { b with context := insertKV b.context key t } key := by
  refine ⟨rfl, ⟨t, lookupKV_insert_self _ _ _⟩,
    fun k2 hk2 => lookupKV_insert_other _ _ _ _ hk2, ?_⟩
  simp [insertKV]

theorem add_json_ok_spec (b : JSONGetTextBuilder) (key : String)
    (json : JSONText) (h : (add_json b key json).2 = .ok) :
    containsKey b.context key = false ∧
    ∃ t, (add_json b key json).1 =
      { b with context := insertKV b.context key t } := by
  by_cases hc : containsKey b.context key = true
  · exact absurd h (by simp [add_json, hc])
  · simp only [Bool.not_eq_true] at hc
    refine ⟨hc, ?_⟩
    cases hj : from_str_map json with
    | error e => exact absurd h (by simp [add_json, hc, hj])
    | ok fields =>
        exact ⟨fields.map (fun p => (p.1, JSONGetTextValue.fromJSONDirect p.2)),
          by simp [add_json, hc, hj]⟩

theorem add_json_owned_ok_spec (b : JSONGetTextBuilder) (key : String)
    (json : JSONText) (h : (add_json_owned b key json).2 = .ok) :
    containsKey b.context key = false ∧
    ∃ t, (add_json_owned b key json).1 =
      { b with context := insertKV b.context key t } := by
  by_cases hc : containsKey b.context key = true
  · exact absurd h (by simp [add_json_owned, hc])
  · simp only [Bool.not_eq_true] at hc
    refine ⟨hc, ?_⟩
    cases hj : from_str_map json with
    | error e => exact absurd h (by simp [add_json_owned, hc, hj])
    | ok fields =>
        exact ⟨fields.map (fun p => (p.1, from_json_value p.2)),
          by simp [add_json_owned, hc, hj]⟩

theorem add_json_file_ok_spec (b : JSONGetTextBuilder) (key : String)
    (file : Except IOError JSONText)
    (h : (add_json_file b key file).2 = .ok) :
    containsKey b.context key = false ∧
    ∃ t, (add_json_file b key file).1 =
      { b with context := insertKV b.context key t } := by
  by_cases hc : containsKey b.context key = true
  · exact absurd h (by simp [add_json_file, hc])
  · simp only [Bool.not_eq_true] at hc
    refine ⟨hc, ?_⟩
    cases hf : file with
    | error io => exact absurd h (by simp [add_json_file, hc, hf])
    | ok text =>
        cases hj : from_str_map text with
        | error e => exact absurd h (by simp [add_json_file, hc, hf, hj])
        | ok fields =>
            exact ⟨fields.map (fun p => (p.1, from_json_value p.2)),
              by simp [add_json_file, hc, hf, hj]⟩

theorem add_serialize_ok_spec (b : JSONGetTextBuilder) (key : String)
    (value : Except JSONError JSON)
    (h : (add_serialize b key value).2 = .ok) :
    containsKey b.context key = false ∧
    ∃ t, (add_serialize b key value).1 =
      { b with context := insertKV b.context key t } := by
  by_cases hc : containsKey b.context key = true
  · exact absurd h (by simp [add_serialize, hc])
  · simp only [Bool.not_eq_true] at hc
    refine ⟨hc, ?_⟩
    cases hv : value with
    | error e => exact absurd h (by simp [add_serialize, hc, hv])
    | ok v =>
        cases v with
        | obj fields =>
            exact ⟨fields.map (fun p => (p.1, from_json_value p.2)),
              by simp [add_serialize, hc, hv]⟩
        | null => exact absurd h (by simp [add_serialize, hc, hv, from_str_map, magicLenText])
        | bool b2 => exact absurd h (by simp [add_serialize, hc, hv, from_str_map, magicLenText])
        | num n => exact absurd h (by simp [add_serialize, hc, hv, from_str_map, magicLenText])
        | str s => exact absurd h (by simp [add_serialize, hc, hv, from_str_map, magicLenText])
        | arr xs => exact absurd h (by simp [add_serialize, hc, hv, from_str_map, magicLenText])

theorem add_map_ok_spec (b : JSONGetTextBuilder) (key : String) (m : Table)
    (h : (add_map b key m).2 = .ok) :
    containsKey b.context key = false ∧
    (add_map b key m).1 = { b with context := insertKV b.context key m } := by
  by_cases hc : containsKey b.context key = true
  · exact absurd h (by simp [add_map, hc])
  · simp only [Bool.not_eq_true] at hc
    exact ⟨hc, by simp [add_map, hc]⟩

/-- Claim C4: for every add operation that succeeds on a key not already in
the Context, afterwards the Context contains exactly one new entry, under
the given key, every entry present before the call is still present and
unchanged, and the builder handle (the updated builder state in this
state-passing embedding) is returned for chaining. -/
theorem C4_success_adds_exactly_one_entry (b : JSONGetTextBuilder)
    (key : String) :
    (∀ json, (add_json b key json).2 = .ok →
      containsKey b.context key = false ∧
      addedExactlyOne b (add_json b key json).1 key) ∧
    (∀ json, (add_json_owned b key json).2 = .ok →
      containsKey b.context key = false ∧
      addedExactlyOne b (add_json_owned b key json).1 key) ∧
    (∀ file, (add_json_file b key file).2 = .ok →
      containsKey b.context key = false ∧
      addedExactlyOne b (add_json_file b key file).1 key) ∧
    (∀ value, (add_serialize b key value).2 = .ok →
      containsKey b.context key = false ∧
      addedExactlyOne b (add_serialize b key value).1 key) ∧
    (∀ m, (add_map b key m).2 = .ok →
      containsKey b.context key = false ∧
      addedExactlyOne b (add_map b key m).1 key) := by
  refine ⟨fun json h => ?_, fun json h => ?_, fun file h => ?_,
    fun value h => ?_, fun m h => ?_⟩
  · obtain ⟨hc, t, ht⟩ := add_json_ok_spec b key json h
    exact ⟨hc, ht ▸ addedExactlyOne_insert b key t⟩
  · obtain ⟨hc, t, ht⟩ := add_json_owned_ok_spec b key json h
    exact ⟨hc, ht ▸ addedExactlyOne_insert b key t⟩
  · obtain ⟨hc, t, ht⟩ := add_json_file_ok_spec b key file h
    exact ⟨hc, ht ▸ addedExactlyOne_insert b key t⟩
  · obtain ⟨hc, t, ht⟩ := add_serialize_ok_spec b key value h
    exact ⟨hc, ht ▸ addedExactlyOne_insert b key t⟩
  · obtain ⟨hc, ht⟩ := add_map_ok_spec b key m h
    exact ⟨hc, ht ▸ addedExactlyOne_insert b key m⟩

/-- Witness for C4: a successful add_json call on a fresh builder adds
exactly one entry. -/
theorem C4_success_adds_exactly_one_entry_witness :
    containsKey ([] : Context) "en" = false ∧
    addedExactlyOne (JSONGetTextBuilder.new "en")
      (add_json (JSONGetTextBuilder.new "en") "en"
        (Except.ok (JSON.obj [("hello", JSON.str "Hello")]))).1 "en" :=
  (C4_success_adds_exactly_one_entry (JSONGetTextBuilder.new "en") "en").1
    (Except.ok (JSON.obj [("hello", JSON.str "Hello")])) rfl

/-- Claim C9: every add operation is atomic with respect to the Context on
every error: whenever the call returns an error value, the builder state
after the call is exactly the builder state before it. -/
theorem C9_error_is_atomic (b : JSONGetTextBuilder) (key : String) :
    (∀ json e, (add_json b key json).2 = .err e →
      (add_json b key json).1 = b) ∧
    (∀ json e, (add_json_owned b key json).2 = .err e →
      (add_json_owned b key json).1 = b) ∧
    (∀ file e, (add_json_file b key file).2 = .err e →
      (add_json_file b key file).1 = b) ∧
    (∀ value e, (add_serialize b key value).2 = .err e →
      (add_serialize b key value).1 = b) ∧
    (∀ m e, (add_map b key m).2 = .err e → (add_map b key m).1 = b) := by
  refine ⟨fun json e h => ?_, fun json e h => ?_, fun file e h => ?_,
    fun value e h => ?_, fun m e h => ?_⟩
  · by_cases hc : containsKey b.context key = true
    · simp [add_json, hc]
    · simp only [Bool.not_eq_true] at hc
      cases hj : from_str_map json with
      | error e2 => simp [add_json, hc, hj]
      | ok fields => exact absurd h (by simp [add_json, hc, hj])
  · by_cases hc : containsKey b.context key = true
    · simp [add_json_owned, hc]
    · simp only [Bool.not_eq_true] at hc
      cases hj : from_str_map json with
      | error e2 => simp [add_json_owned, hc, hj]
      | ok fields => exact absurd h (by simp [add_json_owned, hc, hj])
  · by_cases hc : containsKey b.context key = true
    · simp [add_json_file, hc]
    · simp only [Bool.not_eq_true] at hc
      cases hf : file with
      | error io => simp [add_json_file, hc, hf]
      | ok text =>
          cases hj : from_str_map text with
          | error e2 => simp [add_json_file, hc, hf, hj]
          | ok fields => exact absurd h (by simp [add_json_file, hc, hf, hj])
  · by_cases hc : containsKey b.context key = true
    · simp [add_serialize, hc]
    · simp only [Bool.not_eq_true] at hc
      cases hv : value with
      | error e2 => simp [add_serialize, hc, hv]
      | ok v =>
          cases v with
          | obj fields => exact absurd h (by simp [add_serialize, hc, hv])
          | null => simp [add_serialize, hc, hv, from_str_map, magicLenText]
          | bool b2 => simp [add_serialize, hc, hv, from_str_map, magicLenText]
          | num n => simp [add_serialize, hc, hv, from_str_map, magicLenText]
          | str s => simp [add_serialize, hc, hv, from_str_map, magicLenText]
          | arr xs => simp [add_serialize, hc, hv, from_str_map, magicLenText]
  · by_cases hc : containsKey b.context key = true
    · simp [add_map, hc]
    · simp only [Bool.not_eq_true] at hc
      exact absurd h (by simp [add_map, hc])

/-- Witness for C9: a failed parse in add_json leaves a fresh builder
unchanged. -/
theorem C9_error_is_atomic_witness :
    (add_json (JSONGetTextBuilder.new "en") "en"
      (Except.error (JSONError.syntaxErr "expected value"))).1 =
      JSONGetTextBuilder.new "en" :=
  (C9_error_is_atomic (JSONGetTextBuilder.new "en") "en").1
    (Except.error (JSONError.syntaxErr "expected value"))
    (.SerdeJSONError (JSONError.syntaxErr "expected value")) rfl

/-- Claim C6: an underlying deserialization failure is returned as a wrapped
SerdeJSONError and an underlying open/read failure is returned as a wrapped
IOError; such a failure terminates only that single add call and does not
poison the builder, so a subsequent add for another locale still succeeds. -/
theorem C6_error_wrapping_and_no_poison (b : JSONGetTextBuilder)
    (key key2 : String) (e : JSONError) (io : IOError) (m : Table)
    (hk : containsKey b.context key = false)
    (hk2 : containsKey b.context key2 = false) :
    add_json b key (Except.error e) = (b, .err (.SerdeJSONError e)) ∧
    add_json_owned b key (Except.error e) = (b, .err (.SerdeJSONError e)) ∧
    add_json_file b key (Except.error io) = (b, .err (.IOError io)) ∧
    add_json_file b key (Except.ok (Except.error e)) =
      (b, .err (.SerdeJSONError e)) ∧
    add_serialize b key (Except.error e) = (b, .err (.SerdeJSONError e)) ∧
    (add_map (add_json b key (Except.error e)).1 key2 m).2 = AddOutcome.ok := by
  refine ⟨?_, ?_, ?_, ?_, ?_, ?_⟩ <;>
  simp [add_json, add_json_owned, add_json_file, add_serialize, add_map,
    from_str_map, hk, hk2]

/-- Witness for C6: concrete failures on a fresh builder with default en. -/
theorem C6_error_wrapping_and_no_poison_witness :
    containsKey ([] : Context) "fr" = false ∧
    containsKey ([] : Context) "de" = false ∧
    add_json_file (JSONGetTextBuilder.new "en") "fr"
      (Except.error { msg := "No such file or directory" }) =
      (JSONGetTextBuilder.new "en",
        .err (.IOError { msg := "No such file or directory" })) ∧
    (add_map
      (add_json (JSONGetTextBuilder.new "en") "fr"
        (Except.error (JSONError.syntaxErr "expected value"))).1
      "de" []).2 = AddOutcome.ok :=
  ⟨rfl, rfl,
    (C6_error_wrapping_and_no_poison (JSONGetTextBuilder.new "en") "fr" "de"
      (JSONError.syntaxErr "expected value")
      { msg := "No such file or directory" } [] rfl rfl).2.2.1,
    (C6_error_wrapping_and_no_poison (JSONGetTextBuilder.new "en") "fr" "de"
      (JSONError.syntaxErr "expected value")
      { msg := "No such file or directory" } [] rfl rfl).2.2.2.2.2⟩

/-- Claim C8: the duplicate-key check is performed before any parsing,
reading, or conversion of the payload: if the target key already exists in
the Context, the call returns DuplicatedKey even when the supplied JSON text
is malformed, the file is unreadable, or the structure does not serialize to
an object. -/
theorem C8_duplicate_check_precedes_payload (b : JSONGetTextBuilder)
    (key : String) (e : JSONError) (io : IOError) (v : JSON)
    (h : containsKey b.context key = true)
    (hv : ∀ fields, v ≠ JSON.obj fields) :
    add_json b key (Except.error e) = (b, .err (.DuplicatedKey key)) ∧
    add_json_owned b key (Except.error e) = (b, .err (.DuplicatedKey key)) ∧
    add_json_file b key (Except.error io) = (b, .err (.DuplicatedKey key)) ∧
    add_serialize b key (Except.error e) = (b, .err (.DuplicatedKey key)) ∧
    add_serialize b key (Except.ok v) = (b, .err (.DuplicatedKey key)) := by
  refine ⟨?_, ?_, ?_, ?_, ?_⟩ <;>
  simp [add_json, add_json_owned, add_json_file, add_serialize, h]

/-- Witness for C8: a builder already holding en rejects even malformed or
non-object payloads with DuplicatedKey. -/
theorem C8_duplicate_check_precedes_payload_witness :
    containsKey [("en", ([] : Table))] "en" = true ∧
    add_json { default_key := "en", context := [("en", [])] } "en"
      (Except.error (JSONError.syntaxErr "expected value")) =
      ({ default_key := "en", context := [("en", [])] },
        .err (.DuplicatedKey "en")) ∧
    add_serialize { default_key := "en", context := [("en", [])] } "en"
      (Except.ok JSON.null) =
      ({ default_key := "en", context := [("en", [])] },
        .err (.DuplicatedKey "en")) :=
  ⟨rfl,
    (C8_duplicate_check_precedes_payload ⟨"en", [("en", [])]⟩ "en"
      (JSONError.syntaxErr "expected value") { msg := "nofile" } JSON.null
      rfl (fun fields hh => JSON.noConfusion hh)).1,
    (C8_duplicate_check_precedes_payload ⟨"en", [("en", [])]⟩ "en"
      (JSONError.syntaxErr "expected value") { msg := "nofile" } JSON.null
      rfl (fun fields hh => JSON.noConfusion hh)).2.2.2.2⟩

/-- Counterexample for C5: serializing a value whose top-level shape is a
string (not an object) makes add_serialize return a recoverable error value
(a wrapped SerdeJSONError), not an internal invariant violation: the forced
failing parse of the literal MagicLen string propagates an error before the
unreachable panic is reached. -/
theorem C5_counterexample_nonobject_returns_recoverable_error :
    add_serialize (JSONGetTextBuilder.new "en") "en"
        (Except.ok (JSON.str "x")) =
      (JSONGetTextBuilder.new "en",
        AddOutcome.err (JSONGetTextBuildError.SerdeJSONError
          (JSONError.invalidType "a string" "a map"))) ∧
    (¬ ∃ msg,
      (add_serialize (JSONGetTextBuilder.new "en") "en"
        (Except.ok (JSON.str "x"))).2 = AddOutcome.panicked msg) := by
  refine ⟨rfl, ?_⟩
  rintro ⟨msg, hmsg⟩
  exact AddOutcome.noConfusion hmsg

/-- Claim C5 as amended: for every serializable input to add_serialize whose
serialized top-level shape is not an object (and whose target key is not a
duplicate), the operation returns the recoverable wrapped codec error
produced by the forced failing parse of the literal MagicLen string, rather
than signalling a non-recoverable internal invariant violation. -/
theorem C5_amended_nonobject_returns_serde_error (b : JSONGetTextBuilder)
    (key : String) (v : JSON) (hk : containsKey b.context key = false)
    (hv : ∀ fields, v ≠ JSON.obj fields) :
    add_serialize b key (Except.ok v) =
      (b, AddOutcome.err (JSONGetTextBuildError.SerdeJSONError
        (JSONError.invalidType "a string" "a map"))) := by
  cases v with
  | obj fields => exact absurd rfl (hv fields)
  | null => simp [add_serialize, hk, magicLenText, from_str_map, JSON.describe]
  | bool b2 => simp [add_serialize, hk, magicLenText, from_str_map, JSON.describe]
  | num n => simp [add_serialize, hk, magicLenText, from_str_map, JSON.describe]
  | str s => simp [add_serialize, hk, magicLenText, from_str_map, JSON.describe]
  | arr xs => simp [add_serialize, hk, magicLenText, from_str_map, JSON.describe]

/-- Witness for the amended C5: a null top-level value yields the wrapped
codec error on a fresh builder. -/
theorem C5_amended_nonobject_returns_serde_error_witness :
    containsKey ([] : Context) "en" = false ∧
    add_serialize (JSONGetTextBuilder.new "en") "en" (Except.ok JSON.null) =
      (JSONGetTextBuilder.new "en",
        AddOutcome.err (JSONGetTextBuildError.SerdeJSONError
          (JSONError.invalidType "a string" "a map"))) :=
  ⟨rfl,
    C5_amended_nonobject_returns_serde_error (JSONGetTextBuilder.new "en")
      "en" JSON.null rfl (fun fields hh => JSON.noConfusion hh)⟩

/-- Claim C10: the unreachable panic in the non-object branch of
add_serialize is never executed for any input: the forced deserialization of
the literal MagicLen string as a map always fails, so every call to
add_serialize returns either success or an error value and never panics. -/
theorem C10_add_serialize_never_panics (b : JSONGetTextBuilder)
    (key : String) (value : Except JSONError JSON) :
    from_str_map magicLenText =
      Except.error (JSONError.invalidType "a string" "a map") ∧
    ((add_serialize b key value).2 = AddOutcome.ok ∨
      ∃ e, (add_serialize b key value).2 = AddOutcome.err e) := by
  refine ⟨rfl, ?_⟩
  by_cases hc : containsKey b.context key = true
  · exact Or.inr ⟨.DuplicatedKey key, by simp [add_serialize, hc]⟩
  · simp only [Bool.not_eq_true] at hc
    cases value with
    | error e =>
        exact Or.inr ⟨.SerdeJSONError e, by simp [add_serialize, hc]⟩
    | ok v =>
        cases v with
        | obj fields => exact Or.inl (by simp [add_serialize, hc])
        | null =>
            exact Or.inr ⟨.SerdeJSONError (.invalidType "a string" "a map"),
              by simp [add_serialize, hc, magicLenText, from_str_map, JSON.describe]⟩
        | bool b2 =>
            exact Or.inr ⟨.SerdeJSONError (.invalidType "a string" "a map"),
              by simp [add_serialize, hc, magicLenText, from_str_map, JSON.describe]⟩
        | num n =>
            exact Or.inr ⟨.SerdeJSONError (.invalidType "a string" "a map"),
              by simp [add_serialize, hc, magicLenText, from_str_map, JSON.describe]⟩
        | str s =>
            exact Or.inr ⟨.SerdeJSONError (.invalidType "a string" "a map"),
              by simp [add_serialize, hc, magicLenText, from_str_map, JSON.describe]⟩
        | arr xs =>
            exact Or.inr ⟨.SerdeJSONError (.invalidType "a string" "a map"),
              by simp [add_serialize, hc, magicLenText, from_str_map, JSON.describe]⟩

/-- Claim C7: given the same logical key/value table presented through any
of the five sources — raw text parsing to that object, owned text, a byte
source reading that text, a structure serializing to that object, or a
pre-built map with that observable content — all five add operations succeed
and leave observably equivalent Locale Table contents in the Context under
the given key. -/
theorem C7_source_equivalence (b : JSONGetTextBuilder) (key : String)
    (fields : List (String × JSON)) (m : Table)
    (hk : containsKey b.context key = false)
    (hm : observeTable m = fields) :
    ((add_json b key (Except.ok (JSON.obj fields))).2 = AddOutcome.ok ∧
      Option.map observeTable
        (lookupKV (add_json b key (Except.ok (JSON.obj fields))).1.context key)
        = some fields) ∧
    ((add_json_owned b key (Except.ok (JSON.obj fields))).2 = AddOutcome.ok ∧
      Option.map observeTable
        (lookupKV (add_json_owned b key
          (Except.ok (JSON.obj fields))).1.context key) = some fields) ∧
    ((add_json_file b key (Except.ok (Except.ok (JSON.obj fields)))).2 =
        AddOutcome.ok ∧
      Option.map observeTable
        (lookupKV (add_json_file b key
          (Except.ok (Except.ok (JSON.obj fields)))).1.context key)
        = some fields) ∧
    ((add_serialize b key (Except.ok (JSON.obj fields))).2 = AddOutcome.ok ∧
      Option.map observeTable
        (lookupKV (add_serialize b key
          (Except.ok (JSON.obj fields))).1.context key) = some fields) ∧
    ((add_map b key m).2 = AddOutcome.ok ∧
      Option.map observeTable
        (lookupKV (add_map b key m).1.context key) = some fields) := by
  refine ⟨⟨?_, ?_⟩, ⟨?_, ?_⟩, ⟨?_, ?_⟩, ⟨?_, ?_⟩, ⟨?_, ?_⟩⟩
  · simp [add_json, hk, from_str_map]
  · have hctx : (add_json b key (Except.ok (JSON.obj fields))).1.context =
        insertKV b.context key
          (fields.map (fun p => (p.1, JSONGetTextValue.fromJSONDirect p.2))) := by
      simp [add_json, hk, from_str_map]
    rw [hctx, lookupKV_insert_self]
    exact congrArg some
      (observeTable_map _ observe_fromJSONDirect fields)
  · simp [add_json_owned, hk, from_str_map]
  · have hctx : (add_json_owned b key (Except.ok (JSON.obj fields))).1.context =
        insertKV b.context key
          (fields.map (fun p => (p.1, from_json_value p.2))) := by
      simp [add_json_owned, hk, from_str_map]
    rw [hctx, lookupKV_insert_self]
    exact congrArg some
      (observeTable_map _ observe_from_json_value fields)
  · simp [add_json_file, hk, from_str_map]
  · have hctx : (add_json_file b key
        (Except.ok (Except.ok (JSON.obj fields)))).1.context =
        insertKV b.context key
          (fields.map (fun p => (p.1, from_json_value p.2))) := by
      simp [add_json_file, hk, from_str_map]
    rw [hctx, lookupKV_insert_self]
    exact congrArg some
      (observeTable_map _ observe_from_json_value fields)
  · simp [add_serialize, hk]
  · have hctx : (add_serialize b key (Except.ok (JSON.obj fields))).1.context =
        insertKV b.context key
          (fields.map (fun p => (p.1, from_json_value p.2))) := by
      simp [add_serialize, hk]
    rw [hctx, lookupKV_insert_self]
    exact congrArg some
      (observeTable_map _ observe_from_json_value fields)
  · simp [add_map, hk]
  · have hctx : (add_map b key m).1.context = insertKV b.context key m := by
      simp [add_map, hk]
    rw [hctx, lookupKV_insert_self]
    exact congrArg some hm

/-- Witness for C7: the logical table with one key hello mapping to the
string Hi, presented through all five sources on a fresh builder. -/
theorem C7_source_equivalence_witness :
    containsKey ([] : Context) "en" = false ∧
    observeTable [("hello", JSONGetTextValue.jsonValue (JSON.str "Hi"))] =
      [("hello", JSON.str "Hi")] ∧
    Option.map observeTable
      (lookupKV (add_json (JSONGetTextBuilder.new "en") "en"
        (Except.ok (JSON.obj [("hello", JSON.str "Hi")]))).1.context "en") =
      some [("hello", JSON.str "Hi")] ∧
    Option.map observeTable
      (lookupKV (add_map (JSONGetTextBuilder.new "en") "en"
        [("hello", JSONGetTextValue.jsonValue (JSON.str "Hi"))]).1.context
        "en") =
      some [("hello", JSON.str "Hi")] :=
  ⟨rfl, rfl,
    (C7_source_equivalence (JSONGetTextBuilder.new "en") "en"
      [("hello", JSON.str "Hi")]
      [("hello", JSONGetTextValue.jsonValue (JSON.str "Hi"))] rfl rfl).1.2,
    (C7_source_equivalence (JSONGetTextBuilder.new "en") "en"
      [("hello", JSON.str "Hi")]
      [("hello", JSONGetTextValue.jsonValue (JSON.str "Hi"))]
      rfl rfl).2.2.2.2.2⟩
